import Mathlib

/-!
Verification development for the openapi-sh/cli repository (the `oam` tool).

The development shallowly embeds the repository's Rust sources:

* `src/schema.rs` — the OpenAPI document model and its serde-based
  deserialization (`OpenAPI::from`);
* `src/config.rs` — `AppConfig::new`;
* `src/flavour.rs` — `get_flavour_config`;
* `src/processor.rs` — the wasmtime-based `process` demonstration;
* `src/commands/init.rs` and `src/commands/run.rs` — the `init` and `run`
  commands.

YAML values are modelled by the inductive family `Yaml`/`YamlSeq`/`YamlMap`
(scalars, sequences, string-keyed mappings), which mirrors what
`serde_yaml::from_reader` hands to the derived deserializers.  The derived
serde deserializer of each Rust struct is embedded as a function
`Yaml → Option T` following serde's semantics: a struct accepts only a
mapping, unknown keys are ignored, an `Option` field is `none` when the key
is absent or null, a required field must be present and well-typed, an
untagged enum (`ReferenceOr`) tries its variants in declaration order, and
an internally tagged enum (`SecurityScheme`) dispatches on its `type` key.
The single mutually recursive knot of the model
(`PathItemObject` ↔ `OperationObject`, through the `callbacks` field) is
embedded with a fuel parameter; the fuel is an artifact of the embedding
only, and the public entry points seed it with the size of the input value,
which dominates the recursion depth of the Rust deserializer.

The reference resolver and the iteration engine described by the
specification have no implementation in the repository (only the data they
would operate on is declared in `src`), so they are modelled from the
specification's own algorithm descriptions; the corresponding definitions
carry a `Modelled from the spec` comment.
-/

set_option linter.unusedVariables false

namespace Oam

/-! ## YAML values

A parsed YAML document, as produced by `serde_yaml` before the typed
deserialization runs.  Mapping keys are restricted to strings, which is the
only form the document model of `schema.rs` consumes. -/

mutual
inductive Yaml where
  | null : Yaml
  | bool : Bool → Yaml
  | num : Int → Yaml
  | str : String → Yaml
  | arr : YamlSeq → Yaml
  | map : YamlMap → Yaml

inductive YamlSeq where
  | nil : YamlSeq
  | cons : Yaml → YamlSeq → YamlSeq

inductive YamlMap where
  | nil : YamlMap
  | cons : String → Yaml → YamlMap → YamlMap
end

mutual
/-- Number of nodes of a YAML value; used to seed the decoder fuel. -/
def Yaml.size : Yaml → Nat
  | .null => 1
  | .bool _ => 1
  | .num _ => 1
  | .str _ => 1
  | .arr items => 1 + YamlSeq.size items
  | .map entries => 1 + YamlMap.size entries

/-- Number of nodes of a YAML sequence. -/
def YamlSeq.size : YamlSeq → Nat
  | .nil => 0
  | .cons y tl => 1 + Yaml.size y + YamlSeq.size tl

/-- Number of nodes of a YAML mapping. -/
def YamlMap.size : YamlMap → Nat
  | .nil => 0
  | .cons _ v tl => 1 + Yaml.size v + YamlMap.size tl
end

/-- First binding of a key in a YAML mapping. -/
def getField? : YamlMap → String → Option Yaml
  | .nil, _ => none
  | .cons k v tl, key => if k == key then some v else getField? tl key

/-! ## Generic serde decoding combinators -/

/-- serde deserialization of `String`: only a YAML string is accepted. -/
def decString : Yaml → Option String
  | .str s => some s
  | _ => none

/-- serde deserialization of `bool`: only a YAML boolean is accepted. -/
def decBool : Yaml → Option Bool
  | .bool b => some b
  | _ => none

/-- serde handling of an `Option<T>` struct field: an absent key or a null
value is `None`; otherwise the value must deserialize as `T`. -/
def decOptField (es : YamlMap) (k : String) (f : Yaml → Option α) : Option (Option α) :=
  match getField? es k with
  | none => some none
  | some .null => some none
  | some v => Option.map some (f v)

/-- serde handling of a required struct field: the key must be present and
its value must deserialize. -/
def decReqField (es : YamlMap) (k : String) (f : Yaml → Option α) : Option α :=
  match getField? es k with
  | none => none
  | some v => f v

/-- Deserialize every element of a YAML sequence. -/
def decSeqWith (f : Yaml → Option α) : YamlSeq → Option (List α)
  | .nil => some []
  | .cons y tl => do
    let a ← f y
    let as ← decSeqWith f tl
    pure (a :: as)

/-- serde deserialization of `Vec<T>`: the value must be a sequence and
every element must deserialize as `T`. -/
def decArrWith (f : Yaml → Option α) : Yaml → Option (List α)
  | .arr items => decSeqWith f items
  | _ => none

/-- Deserialize every value of a YAML mapping. -/
def decEntriesWith (f : Yaml → Option α) : YamlMap → Option (List (String × α))
  | .nil => some []
  | .cons k v tl => do
    let a ← f v
    let as ← decEntriesWith f tl
    pure ((k, a) :: as)

/-- serde deserialization of `HashMap<String, T>`: the value must be a
mapping and every entry value must deserialize as `T`.  The mapping is
represented as an association list. -/
def decMapWith (f : Yaml → Option α) : Yaml → Option (List (String × α))
  | .map es => decEntriesWith f es
  | _ => none

/-! ## The document model of src/schema.rs

Each Rust struct becomes a Lean structure with the same fields;
`HashMap<String, T>` is represented as `List (String × T)`.  The two
mutually recursive types `PathItemObject` and `OperationObject` are a
mutual inductive with one constructor each. -/

/-- ExternalDocumentationObject from src/schema.rs. -/
structure ExternalDocumentationObject where
  description : Option String
  url : String

/-- ContactObject from src/schema.rs. -/
structure ContactObject where
  name : Option String
  url : Option String
  email : Option String

/-- LicenseObject from src/schema.rs. -/
structure LicenseObject where
  name : String
  identifier : Option String
  url : Option String

/-- InfoObject from src/schema.rs. -/
structure InfoObject where
  title : String
  summary : Option String
  description : Option String
  terms_of_service : Option String
  contact : Option ContactObject
  license : Option LicenseObject
  version : String

/-- TagObject from src/schema.rs. -/
structure TagObject where
  name : String
  description : Option String
  external_docs : Option ExternalDocumentationObject

/-- DiscriminatorObject from src/schema.rs. -/
structure DiscriminatorObject where
  property_name : String
  mapping : List (String × String)

/-- XMLObject from src/schema.rs. -/
structure XMLObject where
  name : Option String
  namespace_ : Option String
  prefix_ : Option String
  attribute_ : Option Bool
  wrapped : Option Bool

/-- SchemaObject from src/schema.rs. -/
structure SchemaObject where
  discriminator : Option DiscriminatorObject
  xml : Option XMLObject
  external_docs : Option ExternalDocumentationObject
  example_ : Option String

/-- ExampleObject from src/schema.rs. -/
structure ExampleObject where
  summary : Option String
  description : Option String
  value : Option String
  external_value : Option String

/-- ReferenceObject from src/schema.rs: the serde key of `reference` is
`$ref`. -/
structure ReferenceObject where
  reference : String
  summary : Option String
  description : Option String

/-- ReferenceOr from src/schema.rs: an untagged two-variant enum, `Value`
declared first. -/
inductive ReferenceOr (α : Type) : Type where
  | Value : α → ReferenceOr α
  | Reference : ReferenceObject → ReferenceOr α

/-- ServerVariableObject from src/schema.rs. -/
structure ServerVariableObject where
  enum : Option (List String)
  default : String
  description : Option String

/-- ServerObject from src/schema.rs. -/
structure ServerObject where
  url : String
  description : Option String
  variables_ : Option (List (String × ServerVariableObject))

/-- HeaderObject from src/schema.rs (its `required` field is an optional
string in the source). -/
structure HeaderObject where
  description : Option String
  required : Option String
  deprecated : Option Bool
  allow_empty_value : Option Bool

/-- EncodingObject from src/schema.rs. -/
structure EncodingObject where
  content_type : Option String
  headers : Option (List (String × ReferenceOr HeaderObject))
  style : Option String
  explode : Option Bool
  allow_reserved : Option Bool

/-- MediaTypeObject from src/schema.rs. -/
structure MediaTypeObject where
  schema : Option SchemaObject
  example_ : Option String
  examples : Option (List (String × ReferenceOr ExampleObject))
  encoding : Option (List (String × EncodingObject))

/-- RequestBodyObject from src/schema.rs; `content` is required. -/
structure RequestBodyObject where
  description : Option String
  content : List (String × MediaTypeObject)
  required : Option Bool

/-- LinkObject from src/schema.rs. -/
structure LinkObject where
  operation_ref : Option String
  operation_id : Option String
  parameters : Option (List (String × String))
  request_body : Option String
  description : Option String
  server : Option ServerObject

/-- ResponseObject from src/schema.rs; `description` is required. -/
structure ResponseObject where
  description : String
  headers : Option (List (String × ReferenceOr HeaderObject))
  content : Option (List (String × MediaTypeObject))
  links : Option (List (String × ReferenceOr LinkObject))

/-- ParameterObject from src/schema.rs; `name` and `in` are required
(`in` is rendered `in_` because `in` is reserved in Lean). -/
structure ParameterObject where
  name : String
  in_ : String
  description : Option String
  required : Option Bool
  deprecated : Option Bool
  allow_empty_value : Option Bool
  style : Option String
  explode : Option Bool
  allow_reserved : Option Bool
  schema : Option SchemaObject
  example_ : Option String
  examples : Option (List (String × ReferenceOr ExampleObject))

/-- OAuthImplicitFlow from src/schema.rs. -/
structure OAuthImplicitFlow where
  authorization_url : String
  refresh_url : Option String
  scopes : List (String × String)

/-- OAuthPasswordFlow from src/schema.rs. -/
structure OAuthPasswordFlow where
  token_url : String
  refresh_url : Option String
  scopes : List (String × String)

/-- OAuthClientCredentialsFlow from src/schema.rs. -/
structure OAuthClientCredentialsFlow where
  token_url : String
  refresh_url : Option String
  scopes : List (String × String)

/-- OAuthAuthorizationCodeFlow from src/schema.rs. -/
structure OAuthAuthorizationCodeFlow where
  authorization_url : String
  token_url : String
  refresh_url : Option String
  scopes : List (String × String)

/-- OAuthFlowsObject from src/schema.rs; all four flows are required. -/
structure OAuthFlowsObject where
  implicit : OAuthImplicitFlow
  password : OAuthPasswordFlow
  client_credentials : OAuthClientCredentialsFlow
  authorization_code : OAuthAuthorizationCodeFlow

/-- SecurityScheme from src/schema.rs: internally tagged by `type`. -/
inductive SecurityScheme where
  | ApiKey : (name : String) → (in_ : String) → (description : Option String) → SecurityScheme
  | Http : (scheme : String) → (bearer_format : Option String) →
      (description : Option String) → SecurityScheme
  | MutualTLS : (description : Option String) → SecurityScheme
  | OAuth2 : (flows : OAuthFlowsObject) → (description : Option String) → SecurityScheme
  | OpenIDConnect : (open_id_connect_url : String) → (description : Option String) →
      SecurityScheme

mutual
/-- PathItemObject from src/schema.rs.  Every field is optional; the serde
key of `reference` is `$ref`.  Fields, in source order: reference, summary,
description, get, put, post, delete, options, head, patch, trace, servers,
parameters. -/
inductive PathItemObject : Type where
  | mk :
    (reference : Option String) →
    (summary : Option String) →
    (description : Option String) →
    (get : Option OperationObject) →
    (put : Option OperationObject) →
    (post : Option OperationObject) →
    (delete : Option OperationObject) →
    (options : Option OperationObject) →
    (head : Option OperationObject) →
    (patch : Option OperationObject) →
    (trace : Option OperationObject) →
    (servers : Option (List ServerObject)) →
    (parameters : Option (List (ReferenceOr ParameterObject))) →
    PathItemObject

/-- OperationObject from src/schema.rs.  Fields, in source order: tags,
summary, description, external_docs, operation_id, parameters,
request_body, responses, callbacks, deprecated, security, servers. -/
inductive OperationObject : Type where
  | mk :
    (tags : Option (List String)) →
    (summary : Option String) →
    (description : Option String) →
    (external_docs : Option String) →
    (operation_id : Option String) →
    (parameters : Option (List (ReferenceOr ParameterObject))) →
    (request_body : Option (ReferenceOr RequestBodyObject)) →
    (responses : Option (List (String × ReferenceOr ResponseObject))) →
    (callbacks : Option (List (String ×
        ReferenceOr (List (String × ReferenceOr PathItemObject))))) →
    (deprecated : Option Bool) →
    (security : Option (List (List (String × List String)))) →
    (servers : Option (List ServerObject)) →
    OperationObject
end

/-- ComponentsObject from src/schema.rs. -/
structure ComponentsObject where
  schemas : Option (List (String × SchemaObject))
  responses : Option (List (String × ReferenceOr ResponseObject))
  parameters : Option (List (String × ReferenceOr ParameterObject))
  examples : Option (List (String × ReferenceOr ExampleObject))
  request_bodies : Option (List (String × ReferenceOr RequestBodyObject))
  headers : Option (List (String × ReferenceOr HeaderObject))
  security_schemes : Option (List (String × ReferenceOr SecurityScheme))
  links : Option (List (String × ReferenceOr LinkObject))
  callbacks : Option (List (String ×
      ReferenceOr (List (String × ReferenceOr PathItemObject))))
  path_items : Option (List (String × ReferenceOr PathItemObject))

/-- OpenAPI from src/schema.rs: the root document.  Only `openapi` is
required; every other field is optional and never defaulted. -/
structure OpenAPI where
  openapi : String
  info : Option InfoObject
  paths : Option (List (String × PathItemObject))
  webhooks : Option (List (String × ReferenceOr PathItemObject))
  components : Option ComponentsObject
  security : Option (List (List (String × List String)))
  tags : Option (List TagObject)
  external_docs : Option (List ExternalDocumentationObject)

/-! ## The derived deserializers of src/schema.rs

One decoding function per `#[derive(Deserialize)]` type, following the
field lists and `#[serde(rename = ...)]` keys of the source. -/

/-- Derived deserializer of ExternalDocumentationObject. -/
def decExternalDocumentationObject : Yaml → Option ExternalDocumentationObject
  | .map es => do
    let description ← decOptField es "description" decString
    let url ← decReqField es "url" decString
    pure ⟨description, url⟩
  | _ => none

/-- Derived deserializer of ContactObject. -/
def decContactObject : Yaml → Option ContactObject
  | .map es => do
    let name ← decOptField es "name" decString
    let url ← decOptField es "url" decString
    let email ← decOptField es "email" decString
    pure ⟨name, url, email⟩
  | _ => none

/-- Derived deserializer of LicenseObject. -/
def decLicenseObject : Yaml → Option LicenseObject
  | .map es => do
    let name ← decReqField es "name" decString
    let identifier ← decOptField es "identifier" decString
    let url ← decOptField es "url" decString
    pure ⟨name, identifier, url⟩
  | _ => none

/-- Derived deserializer of InfoObject; `terms_of_service` is renamed
`termsOfService` in the source. -/
def decInfoObject : Yaml → Option InfoObject
  | .map es => do
    let title ← decReqField es "title" decString
    let summary ← decOptField es "summary" decString
    let description ← decOptField es "description" decString
    let terms_of_service ← decOptField es "termsOfService" decString
    let contact ← decOptField es "contact" decContactObject
    let license ← decOptField es "license" decLicenseObject
    let version ← decReqField es "version" decString
    pure ⟨title, summary, description, terms_of_service, contact, license, version⟩
  | _ => none

/-- Derived deserializer of TagObject; `external_docs` is renamed
`externalDocs` in the source. -/
def decTagObject : Yaml → Option TagObject
  | .map es => do
    let name ← decReqField es "name" decString
    let description ← decOptField es "description" decString
    let external_docs ← decOptField es "externalDocs" decExternalDocumentationObject
    pure ⟨name, description, external_docs⟩
  | _ => none

/-- Derived deserializer of DiscriminatorObject; `property_name` is renamed
`propertyName` and `mapping` is required. -/
def decDiscriminatorObject : Yaml → Option DiscriminatorObject
  | .map es => do
    let property_name ← decReqField es "propertyName" decString
    let mapping ← decReqField es "mapping" (decMapWith decString)
    pure ⟨property_name, mapping⟩
  | _ => none

/-- Derived deserializer of XMLObject (source keys: name, namespace,
prefix, attribute, wrapped). -/
def decXMLObject : Yaml → Option XMLObject
  | .map es => do
    let name ← decOptField es "name" decString
    let ns ← decOptField es "namespace" decString
    let pfx ← decOptField es "prefix" decString
    let attr ← decOptField es "attribute" decBool
    let wrapped ← decOptField es "wrapped" decBool
    pure ⟨name, ns, pfx, attr, wrapped⟩
  | _ => none

/-- Derived deserializer of SchemaObject; its `external_docs` field has no
serde rename, so the source key is `external_docs`. -/
def decSchemaObject : Yaml → Option SchemaObject
  | .map es => do
    let discriminator ← decOptField es "discriminator" decDiscriminatorObject
    let xml ← decOptField es "xml" decXMLObject
    let external_docs ← decOptField es "external_docs" decExternalDocumentationObject
    let ex ← decOptField es "example" decString
    pure ⟨discriminator, xml, external_docs, ex⟩
  | _ => none

/-- Derived deserializer of ExampleObject; `external_value` is renamed
`externalValue`. -/
def decExampleObject : Yaml → Option ExampleObject
  | .map es => do
    let summary ← decOptField es "summary" decString
    let description ← decOptField es "description" decString
    let value ← decOptField es "value" decString
    let external_value ← decOptField es "externalValue" decString
    pure ⟨summary, description, value, external_value⟩
  | _ => none

/-- Derived deserializer of ReferenceObject; `reference` is renamed
`$ref` and is required. -/
def decReferenceObject : Yaml → Option ReferenceObject
  | .map es => do
    let reference ← decReqField es "$ref" decString
    let summary ← decOptField es "summary" decString
    let description ← decOptField es "description" decString
    pure ⟨reference, summary, description⟩
  | _ => none

/-- Derived deserializer of the untagged enum ReferenceOr: serde tries the
variants in declaration order, so `Value` is attempted first and
`Reference` only if the value deserializer fails. -/
def decRefOr (f : Yaml → Option α) (y : Yaml) : Option (ReferenceOr α) :=
  match f y with
  | some v => some (ReferenceOr.Value v)
  | none => Option.map ReferenceOr.Reference (decReferenceObject y)

/-- Derived deserializer of ServerVariableObject; `default` is required. -/
def decServerVariableObject : Yaml → Option ServerVariableObject
  | .map es => do
    let en ← decOptField es "enum" (decArrWith decString)
    let dflt ← decReqField es "default" decString
    let description ← decOptField es "description" decString
    pure ⟨en, dflt, description⟩
  | _ => none

/-- Derived deserializer of ServerObject; `url` is required. -/
def decServerObject : Yaml → Option ServerObject
  | .map es => do
    let url ← decReqField es "url" decString
    let description ← decOptField es "description" decString
    let vars ← decOptField es "variables" (decMapWith decServerVariableObject)
    pure ⟨url, description, vars⟩
  | _ => none

/-- Derived deserializer of HeaderObject. -/
def decHeaderObject : Yaml → Option HeaderObject
  | .map es => do
    let description ← decOptField es "description" decString
    let required ← decOptField es "required" decString
    let deprecated ← decOptField es "deprecated" decBool
    let allow_empty_value ← decOptField es "allowEmptyValue" decBool
    pure ⟨description, required, deprecated, allow_empty_value⟩
  | _ => none

/-- Derived deserializer of EncodingObject. -/
def decEncodingObject : Yaml → Option EncodingObject
  | .map es => do
    let content_type ← decOptField es "contentType" decString
    let headers ← decOptField es "headers" (decMapWith (decRefOr decHeaderObject))
    let style ← decOptField es "style" decString
    let explode ← decOptField es "explode" decBool
    let allow_reserved ← decOptField es "allowReserved" decBool
    pure ⟨content_type, headers, style, explode, allow_reserved⟩
  | _ => none

/-- Derived deserializer of MediaTypeObject. -/
def decMediaTypeObject : Yaml → Option MediaTypeObject
  | .map es => do
    let schema ← decOptField es "schema" decSchemaObject
    let ex ← decOptField es "example" decString
    let examples ← decOptField es "examples" (decMapWith (decRefOr decExampleObject))
    let encoding ← decOptField es "encoding" (decMapWith decEncodingObject)
    pure ⟨schema, ex, examples, encoding⟩
  | _ => none

/-- Derived deserializer of RequestBodyObject; `content` is required. -/
def decRequestBodyObject : Yaml → Option RequestBodyObject
  | .map es => do
    let description ← decOptField es "description" decString
    let content ← decReqField es "content" (decMapWith decMediaTypeObject)
    let required ← decOptField es "required" decBool
    pure ⟨description, content, required⟩
  | _ => none

/-- Derived deserializer of LinkObject. -/
def decLinkObject : Yaml → Option LinkObject
  | .map es => do
    let operation_ref ← decOptField es "operationRef" decString
    let operation_id ← decOptField es "operationId" decString
    let parameters ← decOptField es "parameters" (decMapWith decString)
    let request_body ← decOptField es "requestBody" decString
    let description ← decOptField es "description" decString
    let server ← decOptField es "server" decServerObject
    pure ⟨operation_ref, operation_id, parameters, request_body, description, server⟩
  | _ => none

/-- Derived deserializer of ResponseObject; `description` is required. -/
def decResponseObject : Yaml → Option ResponseObject
  | .map es => do
    let description ← decReqField es "description" decString
    let headers ← decOptField es "headers" (decMapWith (decRefOr decHeaderObject))
    let content ← decOptField es "content" (decMapWith decMediaTypeObject)
    let links ← decOptField es "links" (decMapWith (decRefOr decLinkObject))
    pure ⟨description, headers, content, links⟩
  | _ => none

/-- Derived deserializer of ParameterObject; `name` and `in` are
required. -/
def decParameterObject : Yaml → Option ParameterObject
  | .map es => do
    let name ← decReqField es "name" decString
    let in_ ← decReqField es "in" decString
    let description ← decOptField es "description" decString
    let required ← decOptField es "required" decBool
    let deprecated ← decOptField es "deprecated" decBool
    let allow_empty_value ← decOptField es "allowEmptyValue" decBool
    let style ← decOptField es "style" decString
    let explode ← decOptField es "explode" decBool
    let allow_reserved ← decOptField es "allowReserved" decBool
    let schema ← decOptField es "schema" decSchemaObject
    let ex ← decOptField es "example" decString
    let examples ← decOptField es "examples" (decMapWith (decRefOr decExampleObject))
    pure ⟨name, in_, description, required, deprecated, allow_empty_value, style,
      explode, allow_reserved, schema, ex, examples⟩
  | _ => none

/-- Derived deserializer of OAuthImplicitFlow. -/
def decOAuthImplicitFlow : Yaml → Option OAuthImplicitFlow
  | .map es => do
    let authorization_url ← decReqField es "authorizationUrl" decString
    let refresh_url ← decOptField es "refreshUrl" decString
    let scopes ← decReqField es "scopes" (decMapWith decString)
    pure ⟨authorization_url, refresh_url, scopes⟩
  | _ => none

/-- Derived deserializer of OAuthPasswordFlow. -/
def decOAuthPasswordFlow : Yaml → Option OAuthPasswordFlow
  | .map es => do
    let token_url ← decReqField es "tokenUrl" decString
    let refresh_url ← decOptField es "refreshUrl" decString
    let scopes ← decReqField es "scopes" (decMapWith decString)
    pure ⟨token_url, refresh_url, scopes⟩
  | _ => none

/-- Derived deserializer of OAuthClientCredentialsFlow. -/
def decOAuthClientCredentialsFlow : Yaml → Option OAuthClientCredentialsFlow
  | .map es => do
    let token_url ← decReqField es "tokenUrl" decString
    let refresh_url ← decOptField es "refreshUrl" decString
    let scopes ← decReqField es "scopes" (decMapWith decString)
    pure ⟨token_url, refresh_url, scopes⟩
  | _ => none

/-- Derived deserializer of OAuthAuthorizationCodeFlow. -/
def decOAuthAuthorizationCodeFlow : Yaml → Option OAuthAuthorizationCodeFlow
  | .map es => do
    let authorization_url ← decReqField es "authorizationUrl" decString
    let token_url ← decReqField es "tokenUrl" decString
    let refresh_url ← decOptField es "refreshUrl" decString
    let scopes ← decReqField es "scopes" (decMapWith decString)
    pure ⟨authorization_url, token_url, refresh_url, scopes⟩
  | _ => none

/-- Derived deserializer of OAuthFlowsObject; all four flows are
required. -/
def decOAuthFlowsObject : Yaml → Option OAuthFlowsObject
  | .map es => do
    let implicit ← decReqField es "implicit" decOAuthImplicitFlow
    let password ← decReqField es "password" decOAuthPasswordFlow
    let client_credentials ← decReqField es "clientCredentials" decOAuthClientCredentialsFlow
    let authorization_code ← decReqField es "authorizationCode" decOAuthAuthorizationCodeFlow
    pure ⟨implicit, password, client_credentials, authorization_code⟩
  | _ => none

/-- Derived deserializer of the internally tagged enum SecurityScheme:
serde dispatches on the value of the `type` key. -/
def decSecurityScheme : Yaml → Option SecurityScheme
  | .map es =>
    match getField? es "type" with
    | some (.str "apiKey") => do
      let name ← decReqField es "name" decString
      let in_ ← decReqField es "in" decString
      let description ← decOptField es "description" decString
      pure (.ApiKey name in_ description)
    | some (.str "http") => do
      let scheme ← decReqField es "scheme" decString
      let bearer_format ← decOptField es "bearerFormat" decString
      let description ← decOptField es "description" decString
      pure (.Http scheme bearer_format description)
    | some (.str "mutualTLS") => do
      let description ← decOptField es "description" decString
      pure (.MutualTLS description)
    | some (.str "oauth2") => do
      let flows ← decReqField es "flows" decOAuthFlowsObject
      let description ← decOptField es "description" decString
      pure (.OAuth2 flows description)
    | some (.str "openIdConnect") => do
      let open_id_connect_url ← decReqField es "openIdConnectUrl" decString
      let description ← decOptField es "description" decString
      pure (.OpenIDConnect open_id_connect_url description)
    | _ => none
  | _ => none

/-- Derived deserializers of the mutually recursive pair
PathItemObject/OperationObject (the recursion runs through the `callbacks`
field of OperationObject).  The pair is defined by structural recursion on
a fuel value; the public entry points seed the fuel with the size of the
input, which dominates the depth of the recursion, so the fuel never runs
out on the inputs actually passed to it. -/
def decBoth : Nat → (Yaml → Option PathItemObject) × (Yaml → Option OperationObject)
  | 0 => (fun _ => none, fun _ => none)
  | fuel + 1 =>
    let decPI := (decBoth fuel).1
    let decOp := (decBoth fuel).2
    ( fun y => match y with
        | .map es => do
          let reference ← decOptField es "$ref" decString
          let summary ← decOptField es "summary" decString
          let description ← decOptField es "description" decString
          let get ← decOptField es "get" decOp
          let put ← decOptField es "put" decOp
          let post ← decOptField es "post" decOp
          let delete ← decOptField es "delete" decOp
          let options ← decOptField es "options" decOp
          let head ← decOptField es "head" decOp
          let patch ← decOptField es "patch" decOp
          let tr ← decOptField es "trace" decOp
          let servers ← decOptField es "servers" (decArrWith decServerObject)
          let parameters ← decOptField es "parameters" (decArrWith (decRefOr decParameterObject))
          pure (.mk reference summary description get put post delete options head
            patch tr servers parameters)
        | _ => none
    , fun y => match y with
        | .map es => do
          let tags ← decOptField es "tags" (decArrWith decString)
          let summary ← decOptField es "summary" decString
          let description ← decOptField es "description" decString
          let external_docs ← decOptField es "externalDocs" decString
          let operation_id ← decOptField es "operationId" decString
          let parameters ← decOptField es "parameters" (decArrWith (decRefOr decParameterObject))
          let request_body ← decOptField es "requestBody" (decRefOr decRequestBodyObject)
          let responses ← decOptField es "responses" (decMapWith (decRefOr decResponseObject))
          let callbacks ← decOptField es "callbacks"
            (decMapWith (decRefOr (decMapWith (decRefOr decPI))))
          let deprecated ← decOptField es "deprecated" decBool
          let security ← decOptField es "security"
            (decArrWith (decMapWith (decArrWith decString)))
          let servers ← decOptField es "servers" (decArrWith decServerObject)
          pure (.mk tags summary description external_docs operation_id parameters
            request_body responses callbacks deprecated security servers)
        | _ => none )

/-- Derived deserializer of PathItemObject, at a given fuel. -/
def decPathItemObject (fuel : Nat) : Yaml → Option PathItemObject := (decBoth fuel).1

/-- Derived deserializer of OperationObject, at a given fuel. -/
def decOperationObject (fuel : Nat) : Yaml → Option OperationObject := (decBoth fuel).2

/-- Derived deserializer of `ReferenceOr<PathItemObject>`, at a given
fuel. -/
def decRefOrPathItem (fuel : Nat) : Yaml → Option (ReferenceOr PathItemObject) :=
  decRefOr (decPathItemObject fuel)

/-- Derived deserializer of ComponentsObject (serde keys `requestBodies`,
`securitySchemes` and `pathItems` are renamed in the source). -/
def decComponentsObject (fuel : Nat) : Yaml → Option ComponentsObject
  | .map es => do
    let schemas ← decOptField es "schemas" (decMapWith decSchemaObject)
    let responses ← decOptField es "responses" (decMapWith (decRefOr decResponseObject))
    let parameters ← decOptField es "parameters" (decMapWith (decRefOr decParameterObject))
    let examples ← decOptField es "examples" (decMapWith (decRefOr decExampleObject))
    let request_bodies ← decOptField es "requestBodies"
      (decMapWith (decRefOr decRequestBodyObject))
    let headers ← decOptField es "headers" (decMapWith (decRefOr decHeaderObject))
    let security_schemes ← decOptField es "securitySchemes"
      (decMapWith (decRefOr decSecurityScheme))
    let links ← decOptField es "links" (decMapWith (decRefOr decLinkObject))
    let callbacks ← decOptField es "callbacks"
      (decMapWith (decRefOr (decMapWith (decRefOrPathItem fuel))))
    let path_items ← decOptField es "pathItems" (decMapWith (decRefOrPathItem fuel))
    pure ⟨schemas, responses, parameters, examples, request_bodies, headers,
      security_schemes, links, callbacks, path_items⟩
  | _ => none

/-- Derived deserializer of the OpenAPI root document; only `openapi` is
required, and `external_docs` is renamed `externalDocs`. -/
def decOpenAPI (fuel : Nat) : Yaml → Option OpenAPI
  | .map es => do
    let openapi ← decReqField es "openapi" decString
    let info ← decOptField es "info" decInfoObject
    let paths ← decOptField es "paths" (decMapWith (decPathItemObject fuel))
    let webhooks ← decOptField es "webhooks" (decMapWith (decRefOrPathItem fuel))
    let components ← decOptField es "components" (decComponentsObject fuel)
    let security ← decOptField es "security" (decArrWith (decMapWith (decArrWith decString)))
    let tags ← decOptField es "tags" (decArrWith decTagObject)
    let external_docs ← decOptField es "externalDocs" (decArrWith decExternalDocumentationObject)
    pure ⟨openapi, info, paths, webhooks, components, security, tags, external_docs⟩
  | _ => none

/-- Deserialize `ReferenceOr<PathItemObject>` from a parsed YAML value;
the fuel is seeded with the size of the value. -/
def deserializeRefOrPathItem (y : Yaml) : Option (ReferenceOr PathItemObject) :=
  decRefOrPathItem (Yaml.size y + 1) y

/-- Deserialize a whole OpenAPI document from a parsed YAML value; the
fuel is seeded with the size of the value. -/
def OpenAPI.deserialize (y : Yaml) : Option OpenAPI :=
  decOpenAPI (Yaml.size y + 1) y

/-! ## OpenAPI::from (src/schema.rs, lines 477-482)

The Rust function opens the file at the given path and runs
`serde_yaml::from_reader` on it, replacing any serde_yaml error by the
constant message `Could not parse file`:

  File::open(path) propagates its io error unchanged (the `?` operator);
  serde_yaml errors — which do carry a location and a reason — are
  discarded by `map_err(|_| anyhow!("Could not parse file"))`. -/

/-- A serde_yaml parse error as the library reports it: it carries the
location (line and column) and a reason. -/
structure YamlError where
  line : Nat
  col : Nat
  msg : String

/-- The outcome of opening and syntactically parsing the file named by the
input path: either `File::open` fails with an io error, or the file's
bytes parse to a YAML value, or serde_yaml reports a syntactic error. -/
inductive FileOutcome where
  | openError : String → FileOutcome
  | content : Except YamlError Yaml → FileOutcome

/-- Embedding of `OpenAPI::from`: an io error from `File::open` is
propagated unchanged; every serde_yaml failure (syntactic or shape) is
replaced by the constant message `Could not parse file`. -/
def OpenAPI.fromInput : FileOutcome → Except String OpenAPI
  | .openError msg => .error msg
  | .content (.error _) => .error "Could not parse file"
  | .content (.ok y) =>
    match OpenAPI.deserialize y with
    | some d => .ok d
    | none => .error "Could not parse file"

/-- The contract claimed by the specification for the parse failure of
`OpenAPI::from`: the reported error carries the offending location/reason
of the malformed input, i.e. it determines the underlying serde_yaml
error. -/
def parseErrorCarriesLocation : Prop :=
  ∀ e1 e2 : YamlError,
    OpenAPI.fromInput (.content (.error e1)) = OpenAPI.fromInput (.content (.error e2)) →
    e1 = e2

/-! ## src/config.rs -/

/-- AppConfig from src/config.rs. -/
structure AppConfig where
  schema : String
  flavour : String

/-- Embedding of `AppConfig::new`: `unwrap_or` with the defaults
`openapi.yaml` and `default`. -/
def AppConfig.new (schema : Option String) (flavour : Option String) : AppConfig :=
  { schema := match schema with | some s => s | none => "openapi.yaml"
    flavour := match flavour with | some f => f | none => "default" }

/-! ## src/flavour.rs -/

/-- Template from src/flavour.rs. -/
structure Template where
  input : String
  output : String
  iteration : Option String

/-- Flavour from src/flavour.rs. -/
structure Flavour where
  version : Option String
  language : String
  templates : List Template

/-- The two failures `get_flavour_config` can report (both are wrapped in
`anyhow::Error` by the source): the io error of `read_to_string` when the
flavour's configuration file is missing, and the `toml` deserialization
error when the configuration is malformed. -/
inductive FlavourLoadError where
  | ioNotFound : String → FlavourLoadError
  | invalidToml : String → FlavourLoadError

/-- Embedding of `get_flavour_config`: reads
`.openapi/flavours/<name>/config.toml` and parses it as toml.  The
filesystem is a parameter `readFile` (`none` models a missing file, the
failure of `read_to_string`), and the toml crate's `from_str` for
`Flavour` is the parameter `tomlFlavour`. -/
def get_flavour_config (readFile : String → Option String)
    (tomlFlavour : String → Except String Flavour) (name : String) :
    Except FlavourLoadError Flavour :=
  let path := ".openapi/flavours/" ++ name ++ "/config.toml"
  match readFile path with
  | none => .error (.ioNotFound path)
  | some contents =>
    match tomlFlavour contents with
    | .ok f => .ok f
    | .error e => .error (.invalidToml e)

/-! ## src/commands/init.rs -/

/-- The filesystem outcomes observed by `init`: whether each of the three
`create_dir` calls and the `File::create_new` call succeeds.  A `false`
models any creation failure (already exists, permission, ...). -/
structure InitFs where
  createOpenapiDir : Bool
  createFlavoursDir : Bool
  createLanguagesDir : Bool
  createConfigFile : Bool

/-- Embedding of `init`: each creation is attempted with `is_ok()`, so
failures are swallowed and only counted against the success message; the
function always returns `Ok(())`.  The second component is the
`created_entities` counter. -/
def init (fs : InitFs) : Except String Unit × Nat :=
  let c1 := if fs.createOpenapiDir then 1 else 0
  let c2 := if fs.createFlavoursDir then c1 + 1 else c1
  let c3 := if fs.createLanguagesDir then c2 + 1 else c2
  let c4 := if fs.createConfigFile then c3 + 1 else c3
  (.ok (), c4)

/-! ## src/processor.rs

The `process` function builds `wasmtime::Engine::default()`, registers a
single host function `host.hello` in the linker, instantiates a fixed
demonstration module and calls its `hello` export.  The embedding records
the resource-relevant configuration of that setup. -/

/-- The wasmtime engine/store knobs relevant to resource bounding: fuel
metering (`Config::consume_fuel`), epoch interruption, and a store
resource limiter for linear memory.  wasmtime enforces a step budget only
when fuel metering is enabled, and a custom memory ceiling only when a
limiter is installed. -/
structure WasmtimeConfig where
  consume_fuel : Bool
  epoch_interruption : Bool
  memory_limiter : Option Nat

/-- `wasmtime::Engine::default()`: fuel metering off, epoch interruption
off, no store limiter. -/
def wasmtimeDefaultConfig : WasmtimeConfig :=
  { consume_fuel := false, epoch_interruption := false, memory_limiter := none }

/-- The setup `process` runs a module under: an engine configuration and
the host functions the linker exposes to the module. -/
structure ProcessorSetup where
  engine : WasmtimeConfig
  host_imports : List (String × String)

/-- Embedding of the setup built by `process` in src/processor.rs: the
default engine and the single host function `host.hello`. -/
def processSetup : ProcessorSetup :=
  { engine := wasmtimeDefaultConfig, host_imports := [("host", "hello")] }

/-- A bounded step/fuel budget is enforced for a setup exactly when fuel
metering is on. -/
def fuelBudgetEnforced (s : ProcessorSetup) : Prop :=
  s.engine.consume_fuel = true

/-- A linear-memory ceiling is enforced for a setup exactly when a store
resource limiter is installed. -/
def memoryCeilingConfigured (s : ProcessorSetup) : Prop :=
  s.engine.memory_limiter.isSome = true

/-- The property claimed by the specification for the sandboxed processor:
module invocations run under an enforced memory ceiling and an enforced
step/fuel budget, with no host capability beyond the declared set. -/
def sandboxBoundsClaim : Prop :=
  fuelBudgetEnforced processSetup ∧ memoryCeilingConfigured processSetup ∧
    processSetup.host_imports = [("host", "hello")]

/-! ## src/commands/run.rs -/

/-- The observable pipeline steps of `run`, in execution order.  The
source never renders a template (it stops after loading the flavour
configuration), but the event is part of the vocabulary so that its
absence can be stated. -/
inductive RunEvent where
  | parseSchema : String → RunEvent
  | loadFlavour : String → RunEvent
  | renderTemplate : String → RunEvent

/-- The errors `run` propagates (both as `anyhow::Error` in the source). -/
inductive RunError where
  | schemaError : String → RunError
  | flavourError : FlavourLoadError → RunError

/-- Embedding of `run`: parse the schema file, then — only on success —
load the flavour configuration; each `?` operator aborts the function with
the error.  The first component lists the steps that were actually
started, in order.  The console output of the source is not modelled. -/
def run (readSchema : String → FileOutcome) (readFile : String → Option String)
    (tomlFlavour : String → Except String Flavour) (config : AppConfig) :
    List RunEvent × Except RunError Unit :=
  match OpenAPI.fromInput (readSchema config.schema) with
  | .error e => ([.parseSchema config.schema], .error (.schemaError e))
  | .ok _ =>
    match get_flavour_config readFile tomlFlavour config.flavour with
    | .error e =>
      ([.parseSchema config.schema, .loadFlavour config.flavour], .error (.flavourError e))
    | .ok _ =>
      ([.parseSchema config.schema, .loadFlavour config.flavour], .ok ())

/-! ## The reference resolver

Modelled from the spec: the repository declares the data the resolver
would walk (`ReferenceOr`, `ReferenceObject`, the component tables) but
contains no resolution code, so the resolver below follows §4.2 of the
specification: depth-first traversal; before descending into a target,
mark it `Resolving`; a revisit of a node marked `Resolving` fails with
`ReferenceError::Cycle` naming the cycle path; a target path that does not
exist fails with `ReferenceError::Unresolved`. -/

/-- Modelled from the spec: a named component is either itself a Reference
node pointing at another component, or an inline value whose definition
mentions a list of reference targets (the `$ref` strings occurring inside
it). -/
inductive CompEntry where
  | ref : String → CompEntry
  | val : List String → CompEntry

/-- Modelled from the spec: the document's reusable-component table. -/
abbrev CompTable := List (String × CompEntry)

/-- Look up a component by name (first binding wins). -/
def lookupComp : CompTable → String → Option CompEntry
  | [], _ => none
  | (k, e) :: rest, n => if k = n then some e else lookupComp rest n

/-- The names bound in a component table. -/
def keysList (tbl : CompTable) : List String := tbl.map Prod.fst

/-- The names bound in a component table, as a finite set. -/
def keysOf (tbl : CompTable) : Finset String := (tbl.map Prod.fst).toFinset

/-- Termination measure of the traversal: the number of table names not
yet marked `Resolving`. -/
def resolveMeasure (tbl : CompTable) (visiting : List String) : Nat :=
  (keysOf tbl \ visiting.toFinset).card

/-- Modelled from the spec: the failures of reference resolution. -/
inductive ReferenceError where
  | Unresolved : String → ReferenceError
  | Cycle : List String → ReferenceError

mutual
/-- Modelled from the spec (§4.2): resolve the component named `n`.  The
`visiting` list is the set of nodes currently marked `Resolving`, in
traversal order; revisiting one of them fails with `Cycle` naming the
path, a missing target fails with `Unresolved`, and otherwise every
reference mentioned by the target is resolved depth-first. -/
def resolveName (tbl : CompTable) (visiting : List String) (n : String) :
    Except ReferenceError Unit :=
  if hv : n ∈ visiting then .error (.Cycle (visiting ++ [n]))
  else
    match hl : lookupComp tbl n with
    | none => .error (.Unresolved n)
    | some (.ref m) => resolveName tbl (visiting ++ [n]) m
    | some (.val rs) => resolveList tbl (visiting ++ [n]) rs
termination_by (resolveMeasure tbl visiting, 0)
decreasing_by
  all_goals
  · apply Prod.Lex.left
    have hmem : n ∈ keysList tbl := by
      clear hv
      induction tbl with
      | nil => simp [lookupComp] at hl
      | cons hd rest ih =>
        obtain ⟨k, e⟩ := hd
        by_cases hk : k = n
        · simp [keysList, hk]
        · simp only [lookupComp, if_neg hk] at hl
          have := ih hl
          simp [keysList] at this ⊢
          exact Or.inr this
    unfold resolveMeasure
    apply Finset.card_lt_card
    rw [Finset.ssubset_iff_of_subset]
    · refine ⟨n, ?_, ?_⟩
      · simp only [keysOf, Finset.mem_sdiff, List.mem_toFinset]
        exact ⟨by simpa [keysList] using hmem, hv⟩
      · simp
    · apply Finset.sdiff_subset_sdiff (le_refl _)
      intro x hx
      simp at hx ⊢
      exact Or.inl hx

/-- Modelled from the spec (§4.2): resolve each of the given reference
targets in order, stopping at the first failure. -/
def resolveList (tbl : CompTable) (visiting : List String) (ns : List String) :
    Except ReferenceError Unit :=
  match ns with
  | [] => .ok ()
  | m :: rest =>
    match resolveName tbl visiting m with
    | .ok () => resolveList tbl visiting rest
    | .error e => .error e
termination_by (resolveMeasure tbl visiting, ns.length + 1)
end

/-- Modelled from the spec: eager resolution of a whole document — every
component of the table is resolved before any generation context is
produced. -/
def resolve (tbl : CompTable) : Except ReferenceError Unit :=
  resolveList tbl [] (keysList tbl)

/-- The reference targets an entry mentions. -/
def refTargets : CompEntry → List String
  | .ref m => [m]
  | .val rs => rs

/-- The entry of `n` exists and mentions some target inside `S`. -/
def entryHitsSet (tbl : CompTable) (S : List String) (n : String) : Bool :=
  match lookupComp tbl n with
  | some e => (refTargets e).any (fun m => decide (m ∈ S))
  | none => false

/-- `S` is a self- or mutually-referential chain: it is nonempty and every
member's entry mentions another member. -/
def cyclicSetB (tbl : CompTable) (S : List String) : Bool :=
  !S.isEmpty && S.all (entryHitsSet tbl S)

/-- Every reference target mentioned anywhere in the table is itself bound
in the table. -/
def wellFormedB (tbl : CompTable) : Bool :=
  tbl.all (fun ke => (refTargets ke.2).all (fun m => decide (m ∈ keysList tbl)))

/-! ## The iteration engine

Modelled from the spec: the repository's `Template` struct declares the
`iteration` directive but no engine consumes it, so the engine below
follows §4.4 of the specification: no directive yields exactly one root
context; the directive `paths` (resp. `components.schemas`) yields one
context per entry of that mapping, in lexicographically sorted key order,
with the substitution variables derived from the entry's key; a directive
whose target does not exist or is not iterable fails with
`FlavourError::InvalidIterationTarget`. -/

/-- Modelled from the spec: a generation context — the iterated element's
key together with the substitution variables derived from it for
output-path rendering. -/
structure GenerationContext where
  key : String
  vars : List (String × String)

/-- Modelled from the spec: the substitution variables derived from an
iterated key. -/
def pathVars (k : String) : List (String × String) := [("key", k)]

/-- Modelled from the spec: the per-template failure of the iteration
engine. -/
inductive IterationError where
  | InvalidIterationTarget : String → IterationError

/-- Keys of an association list, sorted lexicographically. -/
def sortedKeys (l : List (String × α)) : List String :=
  List.insertionSort (· ≤ ·) (l.map Prod.fst)

/-- Modelled from the spec (§4.4): the generation contexts of a template
over a document. -/
def contexts (t : Template) (doc : OpenAPI) :
    Except IterationError (List GenerationContext) :=
  match t.iteration with
  | none => .ok [⟨"", []⟩]
  | some "paths" =>
    match doc.paths with
    | some ps => .ok ((sortedKeys ps).map (fun k => ⟨k, pathVars k⟩))
    | none => .error (.InvalidIterationTarget "paths")
  | some "components.schemas" =>
    match doc.components with
    | some comps =>
      match comps.schemas with
      | some ss => .ok ((sortedKeys ss).map (fun k => ⟨k, pathVars k⟩))
      | none => .error (.InvalidIterationTarget "components.schemas")
    | none => .error (.InvalidIterationTarget "components.schemas")
  | some other => .error (.InvalidIterationTarget other)

/-- A path item with every optional field absent; a minimal iteration
element for concrete documents. -/
def emptyPathItem : PathItemObject :=
  .mk none none none none none none none none none none none none none

/-! ## Theorems -/

/-- C1 (counterexample): the claim that the parse error of `OpenAPI::from`
carries the offending location/reason is false — `map_err` replaces every
serde_yaml error by the constant message `Could not parse file`, so two
malformed inputs with different error locations are indistinguishable in
the result. -/
theorem openapi_from_discards_location : ¬ parseErrorCarriesLocation := by
  intro h
  have h12 := h ⟨1, 1, "unexpected token"⟩ ⟨9, 3, "bad indentation"⟩ rfl
  have hline := congrArg YamlError.line h12
  simp at hline

/-- C1 (amended): for every input path outcome, `OpenAPI::from` either
produces a Document, or propagates the io error of `File::open` verbatim,
or fails with the fixed message `Could not parse file`; the parse error
does not carry the offending location/reason. -/
theorem openapi_from_total_with_fixed_message (input : FileOutcome) :
    (∃ d, OpenAPI.fromInput input = .ok d) ∨
    (∃ m, input = .openError m ∧ OpenAPI.fromInput input = .error m) ∨
    OpenAPI.fromInput input = .error "Could not parse file" := by
  match input with
  | .openError m => exact Or.inr (Or.inl ⟨m, rfl, rfl⟩)
  | .content (.error e) => exact Or.inr (Or.inr rfl)
  | .content (.ok y) =>
    cases h : OpenAPI.deserialize y with
    | some d => exact Or.inl ⟨d, by simp [OpenAPI.fromInput, h]⟩
    | none => exact Or.inr (Or.inr (by simp [OpenAPI.fromInput, h]))

/-- C3 (counterexample): deserializing `ReferenceOr<PathItemObject>` can
produce the `Reference` variant — a mapping with a string `$ref` plus an
ill-typed operation field fails as `PathItemObject` (the `get` value is
not a mapping) but succeeds as `ReferenceObject`, which ignores the
unknown `get` key. -/
theorem refOrPathItem_reference_variant_reachable :
    deserializeRefOrPathItem
      (.map (.cons "$ref" (.str "#/components/pathItems/X")
        (.cons "get" (.num 5) .nil))) =
    some (.Reference ⟨"#/components/pathItems/X", none, none⟩) := rfl

/-- C3 (amended): the untagged enum tries `Value` first and every field of
`PathItemObject` is optional, so a mapping containing only a `$ref` key
deserializes as `Value (PathItemObject ...)` with the `$ref` string in its
`reference` field — a pure reference node is not represented as a
`Reference`.  The `Reference` variant remains reachable only when the
mapping fails to deserialize as a `PathItemObject` (see the
counterexample). -/
theorem refOrPathItem_pure_ref_is_value (s : String) :
    deserializeRefOrPathItem (.map (.cons "$ref" (.str s) .nil)) =
    some (.Value (.mk (some s) none none none none none none none none none
      none none none)) := rfl

/-- C4 (counterexample): the claim that module instantiation by `process`
runs under an enforced memory ceiling and fuel budget is false — the
default wasmtime engine used by `process` has fuel metering off and no
store limiter installed. -/
theorem process_sandbox_bounds_not_enforced : ¬ sandboxBoundsClaim := by
  intro h
  have h1 := h.1
  simp [fuelBudgetEnforced, processSetup, wasmtimeDefaultConfig] at h1

/-- C4 (amended): `process` instantiates its fixed demonstration module
with wasmtime's default engine — no step/fuel budget and no linear-memory
ceiling are configured, so neither bound is enforced — and the only host
capability exposed through the linker is the single declared function
`host.hello`. -/
theorem process_default_engine_setup :
    ¬ fuelBudgetEnforced processSetup ∧ ¬ memoryCeilingConfigured processSetup ∧
      processSetup.host_imports = [("host", "hello")] := by
  refine ⟨?_, ?_, rfl⟩ <;>
    simp [fuelBudgetEnforced, memoryCeilingConfigured, processSetup, wasmtimeDefaultConfig]

/-- C8: the parser does not enforce the presence of any of paths,
components or webhooks — a document carrying only the required `openapi`
version field deserializes successfully, and each of the three absent
sections is represented as `none` (not defaulted), the three keys being
genuinely absent from the input mapping. -/
theorem openapi_parser_accepts_absent_sections :
    OpenAPI.fromInput (.content (.ok (.map (.cons "openapi" (.str "3.0.0") .nil)))) =
      .ok ⟨"3.0.0", none, none, none, none, none, none, none⟩ ∧
    getField? (.cons "openapi" (.str "3.0.0") .nil) "paths" = none ∧
    getField? (.cons "openapi" (.str "3.0.0") .nil) "components" = none ∧
    getField? (.cons "openapi" (.str "3.0.0") .nil) "webhooks" = none :=
  ⟨rfl, rfl, rfl, rfl⟩

/-- C9: `AppConfig::new` keeps supplied values unchanged and substitutes
exactly `openapi.yaml` for an absent schema path and `default` for an
absent flavour name. -/
theorem appConfig_new_defaults (s f : String) :
    AppConfig.new (some s) (some f) = ⟨s, f⟩ ∧
    AppConfig.new (some s) none = ⟨s, "default"⟩ ∧
    AppConfig.new none (some f) = ⟨"openapi.yaml", f⟩ ∧
    AppConfig.new none none = ⟨"openapi.yaml", "default"⟩ :=
  ⟨rfl, rfl, rfl, rfl⟩

/-- C10: `init` returns `Ok(())` for every filesystem outcome — each
creation is attempted with `is_ok()` and every failure is swallowed. -/
theorem init_always_ok (fs : InitFs) : (init fs).1 = .ok () := rfl

/-- C6: `get_flavour_config` fails with the io not-found error when the
flavour's configuration file is missing, fails with the toml
deserialization error when the configuration is malformed, and returns the
parsed Flavour value otherwise. -/
theorem get_flavour_config_cases (readFile : String → Option String)
    (tomlFlavour : String → Except String Flavour) (name : String) :
    (readFile (".openapi/flavours/" ++ name ++ "/config.toml") = none →
      get_flavour_config readFile tomlFlavour name =
        .error (.ioNotFound (".openapi/flavours/" ++ name ++ "/config.toml"))) ∧
    (∀ c e, readFile (".openapi/flavours/" ++ name ++ "/config.toml") = some c →
      tomlFlavour c = .error e →
      get_flavour_config readFile tomlFlavour name = .error (.invalidToml e)) ∧
    (∀ c fl, readFile (".openapi/flavours/" ++ name ++ "/config.toml") = some c →
      tomlFlavour c = .ok fl →
      get_flavour_config readFile tomlFlavour name = .ok fl) := by
  refine ⟨?_, ?_, ?_⟩
  · intro h
    simp [get_flavour_config, h]
  · intro c e h1 h2
    simp [get_flavour_config, h1, h2]
  · intro c fl h1 h2
    simp [get_flavour_config, h1, h2]

/-- C6 (witness): the three cases at concrete inputs — a missing file on a
flavour named `default`, a malformed file, and a well-formed file. -/
theorem get_flavour_config_cases_witness :
    get_flavour_config (fun _ => none) (fun _ => .error "boom") "default" =
      .error (.ioNotFound ".openapi/flavours/default/config.toml") ∧
    get_flavour_config (fun _ => some "template") (fun _ => .error "boom") "default" =
      .error (.invalidToml "boom") ∧
    get_flavour_config (fun _ => some "ok") (fun _ => .ok ⟨none, "rust", []⟩) "default" =
      .ok ⟨none, "rust", []⟩ :=
  ⟨(get_flavour_config_cases (fun _ => none) (fun _ => .error "boom") "default").1 rfl,
   (get_flavour_config_cases (fun _ => some "template") (fun _ => .error "boom")
      "default").2.1 "template" "boom" rfl rfl,
   (get_flavour_config_cases (fun _ => some "ok") (fun _ => .ok ⟨none, "rust", []⟩)
      "default").2.2 "ok" ⟨none, "rust", []⟩ rfl rfl⟩

/-- C7: in the run pipeline, a schema parse failure aborts the whole run
at once — the trace contains only the parse step, the flavour catalog is
never loaded, and no template is rendered. -/
theorem run_aborts_before_flavour_on_parse_error
    (readSchema : String → FileOutcome) (readFile : String → Option String)
    (tomlFlavour : String → Except String Flavour) (config : AppConfig) (e : String)
    (herr : OpenAPI.fromInput (readSchema config.schema) = .error e) :
    run readSchema readFile tomlFlavour config =
      ([.parseSchema config.schema], .error (.schemaError e)) ∧
    (∀ n, RunEvent.loadFlavour n ∉ (run readSchema readFile tomlFlavour config).1) ∧
    (∀ n, RunEvent.renderTemplate n ∉ (run readSchema readFile tomlFlavour config).1) := by
  have hrun : run readSchema readFile tomlFlavour config =
      ([.parseSchema config.schema], .error (.schemaError e)) := by
    simp [run, herr]
  refine ⟨hrun, ?_, ?_⟩ <;> intro n <;> rw [hrun] <;> simp

/-- C7 (witness): a run over a missing schema file stops after the parse
step with the propagated io error. -/
theorem run_aborts_before_flavour_on_parse_error_witness :
    OpenAPI.fromInput ((fun _ => FileOutcome.openError "no such file")
      (AppConfig.new none none).schema) = .error "no such file" ∧
    run (fun _ => FileOutcome.openError "no such file") (fun _ => none)
      (fun _ => .error "bad toml") (AppConfig.new none none) =
      ([.parseSchema "openapi.yaml"], .error (.schemaError "no such file")) :=
  ⟨rfl,
   (run_aborts_before_flavour_on_parse_error
      (fun _ => FileOutcome.openError "no such file") (fun _ => none)
      (fun _ => .error "bad toml") (AppConfig.new none none) "no such file" rfl).1⟩

/-- C5: for a template whose iteration directive is `paths`, over a
document exposing N distinct path strings, the iteration engine yields
exactly N contexts, one per path (the context keys are a permutation of
the path keys and remain distinct), enumerated in lexicographically sorted
key order, each context's substitution variables derived from its own
key. -/
theorem iteration_paths_contexts (t : Template) (doc : OpenAPI)
    (ps : List (String × PathItemObject))
    (ht : t.iteration = some "paths") (hp : doc.paths = some ps)
    (hnd : (ps.map Prod.fst).Nodup) :
    ∃ cs, contexts t doc = .ok cs ∧
      cs.length = ps.length ∧
      (cs.map GenerationContext.key).Perm (ps.map Prod.fst) ∧
      List.Sorted (· ≤ ·) (cs.map GenerationContext.key) ∧
      (cs.map GenerationContext.key).Nodup ∧
      ∀ c ∈ cs, c.vars = pathVars c.key := by
  have hkeys : (((sortedKeys ps).map (fun k => (⟨k, pathVars k⟩ : GenerationContext))).map
      GenerationContext.key) = sortedKeys ps := by
    simp [List.map_map, Function.comp_def]
  have hperm : (sortedKeys ps).Perm (ps.map Prod.fst) :=
    List.perm_insertionSort _ _
  refine ⟨(sortedKeys ps).map (fun k => ⟨k, pathVars k⟩), ?_, ?_, ?_, ?_, ?_, ?_⟩
  · simp [contexts, ht, hp]
  · rw [List.length_map]
    calc (sortedKeys ps).length = (ps.map Prod.fst).length := hperm.length_eq
    _ = ps.length := List.length_map _ _
  · rw [hkeys]
    exact hperm
  · rw [hkeys]
    exact List.sorted_insertionSort _ _
  · rw [hkeys]
    exact hperm.nodup_iff.mpr hnd
  · intro c hc
    simp [List.mem_map] at hc
    obtain ⟨k, _, rfl⟩ := hc
    rfl

/-- C5 (witness): a document with the two paths /b and /a under a
`paths`-iterating template yields exactly the two contexts, sorted. -/
theorem iteration_paths_contexts_witness :
    (⟨"handler", "handlers.out", some "paths"⟩ : Template).iteration = some "paths" ∧
    ∃ cs, contexts ⟨"handler", "handlers.out", some "paths"⟩
        ⟨"3.1.0", none, some [("/b", emptyPathItem), ("/a", emptyPathItem)],
          none, none, none, none, none⟩ = .ok cs ∧
      cs.length = [("/b", emptyPathItem), ("/a", emptyPathItem)].length ∧
      (cs.map GenerationContext.key).Perm
        ([("/b", emptyPathItem), ("/a", emptyPathItem)].map Prod.fst) ∧
      List.Sorted (· ≤ ·) (cs.map GenerationContext.key) ∧
      (cs.map GenerationContext.key).Nodup ∧
      ∀ c ∈ cs, c.vars = pathVars c.key :=
  ⟨rfl,
   iteration_paths_contexts ⟨"handler", "handlers.out", some "paths"⟩
     ⟨"3.1.0", none, some [("/b", emptyPathItem), ("/a", emptyPathItem)],
       none, none, none, none, none⟩
     [("/b", emptyPathItem), ("/a", emptyPathItem)] rfl rfl (by decide)⟩

/-! ### Lemmas about the reference resolver -/

/-- The traversal measure strictly decreases when a table name is newly
marked `Resolving`. -/
theorem resolveMeasure_lt (tbl : CompTable) (visiting : List String) (n : String)
    (h1 : n ∉ visiting) (h2 : n ∈ keysList tbl) :
    resolveMeasure tbl (visiting ++ [n]) < resolveMeasure tbl visiting := by
  unfold resolveMeasure
  apply Finset.card_lt_card
  rw [Finset.ssubset_iff_of_subset]
  · refine ⟨n, ?_, ?_⟩
    · simp only [keysOf, Finset.mem_sdiff, List.mem_toFinset]
      exact ⟨by simpa [keysList] using h2, h1⟩
    · simp
  · apply Finset.sdiff_subset_sdiff (le_refl _)
    intro x hx
    simp at hx ⊢
    exact Or.inl hx

/-- A successful lookup comes from a binding of the table. -/
theorem lookupComp_mem {tbl : CompTable} {n : String} {e : CompEntry}
    (h : lookupComp tbl n = some e) : (n, e) ∈ tbl := by
  induction tbl with
  | nil => simp [lookupComp] at h
  | cons hd rest ih =>
    obtain ⟨k, e'⟩ := hd
    by_cases hk : k = n
    · subst hk
      simp [lookupComp] at h
      simp [h]
    · simp only [lookupComp, if_neg hk] at h
      simp [ih h]

/-- A successful lookup implies the name is bound. -/
theorem mem_keysList_of_lookup {tbl : CompTable} {n : String} {e : CompEntry}
    (h : lookupComp tbl n = some e) : n ∈ keysList tbl := by
  have hm := lookupComp_mem h
  simpa [keysList] using List.mem_map_of_mem Prod.fst hm

/-- A bound name always looks up to something. -/
theorem lookup_ne_none_of_mem {tbl : CompTable} {n : String}
    (h : n ∈ keysList tbl) : lookupComp tbl n ≠ none := by
  induction tbl with
  | nil => simp [keysList] at h
  | cons hd rest ih =>
    obtain ⟨k, e⟩ := hd
    by_cases hk : k = n
    · simp [lookupComp, hk]
    · simp only [lookupComp, if_neg hk]
      apply ih
      simp only [keysList, List.map_cons, List.mem_cons] at h
      rcases h with h | h
      · exact absurd h.symm hk
      · exact h

/-- Under well-formedness, the targets of a looked-up entry are bound. -/
theorem wellFormed_targets {tbl : CompTable} (hwf : wellFormedB tbl = true)
    {n : String} {e : CompEntry} (h : lookupComp tbl n = some e) :
    ∀ m ∈ refTargets e, m ∈ keysList tbl := by
  have hm := lookupComp_mem h
  simp only [wellFormedB, List.all_eq_true, decide_eq_true_eq] at hwf
  exact hwf (n, e) hm

/-- Unfolding of `entryHitsSet`. -/
theorem entryHitsSet_spec {tbl : CompTable} {S : List String} {n : String}
    (h : entryHitsSet tbl S n = true) :
    ∃ e, lookupComp tbl n = some e ∧ ∃ m ∈ refTargets e, m ∈ S := by
  unfold entryHitsSet at h
  split at h
  · rename_i e heq
    simp only [List.any_eq_true, decide_eq_true_eq] at h
    exact ⟨e, heq, h⟩
  · simp at h

/-- Unfolding of `cyclicSetB`. -/
theorem cyclicSetB_spec {tbl : CompTable} {S : List String}
    (h : cyclicSetB tbl S = true) :
    S ≠ [] ∧ ∀ n ∈ S, entryHitsSet tbl S n = true := by
  simp only [cyclicSetB, Bool.and_eq_true, List.all_eq_true] at h
  refine ⟨?_, h.2⟩
  intro hS
  subst hS
  simp at h

/-- Any cycle error produced by the traversal names a chain built as
`pre ++ [m]` with the repeated element `m` occurring in `pre`. -/
theorem resolve_cycle_shape (tbl : CompTable) :
    ∀ c : Nat, ∀ visiting : List String, resolveMeasure tbl visiting ≤ c →
      (∀ n ch, resolveName tbl visiting n = .error (.Cycle ch) →
        ∃ pre m, ch = pre ++ [m] ∧ m ∈ pre) ∧
      (∀ ns ch, resolveList tbl visiting ns = .error (.Cycle ch) →
        ∃ pre m, ch = pre ++ [m] ∧ m ∈ pre) := by
  intro c
  induction c using Nat.strong_induction_on with
  | _ c IH =>
    intro visiting hc
    have hname : ∀ n ch, resolveName tbl visiting n = .error (.Cycle ch) →
        ∃ pre m, ch = pre ++ [m] ∧ m ∈ pre := by
      intro n ch hres
      rw [resolveName] at hres
      split at hres
      · rename_i hv
        simp only [Except.error.injEq, ReferenceError.Cycle.injEq] at hres
        exact ⟨visiting, n, hres.symm, hv⟩
      · rename_i hv
        split at hres
        · simp at hres
        · rename_i m hl
          have hmem := mem_keysList_of_lookup hl
          have hlt := resolveMeasure_lt tbl visiting n hv hmem
          exact (IH _ (lt_of_lt_of_le hlt hc) (visiting ++ [n]) le_rfl).1 m ch hres
        · rename_i rs hl
          have hmem := mem_keysList_of_lookup hl
          have hlt := resolveMeasure_lt tbl visiting n hv hmem
          exact (IH _ (lt_of_lt_of_le hlt hc) (visiting ++ [n]) le_rfl).2 rs ch hres
    refine ⟨hname, ?_⟩
    intro ns
    induction ns with
    | nil =>
      intro ch h
      rw [resolveList] at h
      simp at h
    | cons m rest ihl =>
      intro ch h
      rw [resolveList] at h
      split at h
      · exact ihl ch h
      · rename_i e heq
        simp only [Except.error.injEq] at h
        subst h
        exact hname m ch heq

/-- When every mentioned target is bound in the table, the traversal never
reports `Unresolved`. -/
theorem resolve_no_unresolved (tbl : CompTable) (hwf : wellFormedB tbl = true) :
    ∀ c : Nat, ∀ visiting : List String, resolveMeasure tbl visiting ≤ c →
      (∀ n, n ∈ keysList tbl →
        ∀ x, resolveName tbl visiting n ≠ .error (.Unresolved x)) ∧
      (∀ ns, (∀ y ∈ ns, y ∈ keysList tbl) →
        ∀ x, resolveList tbl visiting ns ≠ .error (.Unresolved x)) := by
  intro c
  induction c using Nat.strong_induction_on with
  | _ c IH =>
    intro visiting hc
    have hname : ∀ n, n ∈ keysList tbl →
        ∀ x, resolveName tbl visiting n ≠ .error (.Unresolved x) := by
      intro n hn x hres
      rw [resolveName] at hres
      split at hres
      · simp at hres
      · rename_i hv
        split at hres
        · rename_i hl
          exact lookup_ne_none_of_mem hn hl
        · rename_i m hl
          have hm : m ∈ keysList tbl :=
            wellFormed_targets hwf hl m (by simp [refTargets])
          have hlt := resolveMeasure_lt tbl visiting n hv hn
          exact (IH _ (lt_of_lt_of_le hlt hc) (visiting ++ [n]) le_rfl).1 m hm x hres
        · rename_i rs hl
          have hsub : ∀ y ∈ rs, y ∈ keysList tbl := by
            intro y hy
            exact wellFormed_targets hwf hl y (by simpa [refTargets] using hy)
          have hlt := resolveMeasure_lt tbl visiting n hv hn
          exact (IH _ (lt_of_lt_of_le hlt hc) (visiting ++ [n]) le_rfl).2 rs hsub x hres
    refine ⟨hname, ?_⟩
    intro ns
    induction ns with
    | nil =>
      intro hsub x h
      rw [resolveList] at h
      simp at h
    | cons m rest ihl =>
      intro hsub x h
      rw [resolveList] at h
      split at h
      · exact ihl (fun y hy => hsub y (List.mem_cons_of_mem m hy)) x h
      · rename_i e heq
        simp only [Except.error.injEq] at h
        subst h
        exact hname m (hsub m (List.mem_cons_self m rest)) x heq

/-- Starting inside a self- or mutually-referential chain — or iterating
over a list that meets one — the traversal reports a cycle error. -/
theorem resolve_cyclic_aux (tbl : CompTable) (S : List String)
    (hwf : wellFormedB tbl = true) (hS : cyclicSetB tbl S = true) :
    ∀ c : Nat, ∀ visiting : List String, resolveMeasure tbl visiting ≤ c →
      (∀ n, n ∈ S → ∃ ch, resolveName tbl visiting n = .error (.Cycle ch)) ∧
      (∀ ns, (∀ y ∈ ns, y ∈ keysList tbl) → (∃ m ∈ ns, m ∈ S) →
        ∃ ch, resolveList tbl visiting ns = .error (.Cycle ch)) := by
  have hcy := (cyclicSetB_spec hS).2
  intro c
  induction c using Nat.strong_induction_on with
  | _ c IH =>
    intro visiting hc
    have hname : ∀ n, n ∈ S → ∃ ch, resolveName tbl visiting n = .error (.Cycle ch) := by
      intro n hnS
      obtain ⟨e, hl, m, hmt, hmS⟩ := entryHitsSet_spec (hcy n hnS)
      have hnK : n ∈ keysList tbl := mem_keysList_of_lookup hl
      rw [resolveName]
      split
      · exact ⟨visiting ++ [n], rfl⟩
      · rename_i hv
        split
        · rename_i hl0
          rw [hl0] at hl
          exact absurd hl (by simp)
        · rename_i m' hl'
          rw [hl'] at hl
          simp only [Option.some.injEq] at hl
          have hm' : m' ∈ S := by
            have : m = m' := by
              rw [← hl] at hmt
              simpa [refTargets] using hmt
            rwa [← this]
          have hlt := resolveMeasure_lt tbl visiting n hv hnK
          exact (IH _ (lt_of_lt_of_le hlt hc) (visiting ++ [n]) le_rfl).1 m' hm'
        · rename_i rs hl'
          rw [hl'] at hl
          simp only [Option.some.injEq] at hl
          have hmrs : m ∈ rs := by
            rw [← hl] at hmt
            simpa [refTargets] using hmt
          have hlt := resolveMeasure_lt tbl visiting n hv hnK
          refine (IH _ (lt_of_lt_of_le hlt hc) (visiting ++ [n]) le_rfl).2 rs ?_
            ⟨m, hmrs, hmS⟩
          intro y hy
          exact wellFormed_targets hwf hl' y (by simpa [refTargets] using hy)
    refine ⟨hname, ?_⟩
    intro ns
    induction ns with
    | nil =>
      intro hsub hex
      simp at hex
    | cons r rest ihl =>
      intro hsub hex
      rw [resolveList]
      split
      · rename_i heq
        apply ihl (fun y hy => hsub y (List.mem_cons_of_mem r hy))
        obtain ⟨m, hm, hmS⟩ := hex
        rcases List.mem_cons.mp hm with rfl | hmrest
        · obtain ⟨ch, hch⟩ := hname m hmS
          rw [heq] at hch
          exact absurd hch (by simp)
        · exact ⟨m, hmrest, hmS⟩
      · rename_i e heq
        cases e with
        | Unresolved x =>
          exact absurd heq
            ((resolve_no_unresolved tbl hwf (resolveMeasure tbl visiting) visiting
              le_rfl).1 r (hsub r (List.mem_cons_self r rest)) x)
        | Cycle ch => exact ⟨ch, rfl⟩

/-- C2 (spec-modelled): for any document whose component table is
well-formed (every mentioned target is bound) and contains a
self-referential or mutually-referential chain of component references,
eager resolution of the document fails with `ReferenceError::Cycle`, and
the reported chain genuinely names the cycle: it is `pre ++ [m]` with the
repeated node `m` already occurring in `pre`.  The traversal terminates by
construction — `resolveName`/`resolveList` are defined by well-founded
recursion on the number of names not yet marked `Resolving` — and the
cycle is never silently broken, since the result is an error, never
success. -/
theorem resolve_cyclic_fails (tbl : CompTable) (S : List String)
    (hwf : wellFormedB tbl = true) (hS : cyclicSetB tbl S = true) :
    ∃ pre m, resolve tbl = .error (.Cycle (pre ++ [m])) ∧ m ∈ pre := by
  obtain ⟨hne, hcy⟩ := cyclicSetB_spec hS
  obtain ⟨n₀, hn₀⟩ : ∃ n₀, n₀ ∈ S := by
    cases S with
    | nil => exact absurd rfl hne
    | cons a t => exact ⟨a, List.mem_cons_self a t⟩
  obtain ⟨e, hl, m, hmt, hmS⟩ := entryHitsSet_spec (hcy n₀ hn₀)
  have hn₀K : n₀ ∈ keysList tbl := mem_keysList_of_lookup hl
  obtain ⟨ch, hch⟩ :=
    (resolve_cyclic_aux tbl S hwf hS (resolveMeasure tbl []) [] le_rfl).2
      (keysList tbl) (fun y hy => hy) ⟨n₀, hn₀K, hn₀⟩
  obtain ⟨pre, m', hshape, hm'⟩ :=
    (resolve_cycle_shape tbl (resolveMeasure tbl []) [] le_rfl).2 (keysList tbl) ch hch
  refine ⟨pre, m', ?_, hm'⟩
  rw [resolve, hch, hshape]

/-- C2 (witness): the specification's own scenario — a component `Pet`
whose definition references `Pet` itself — is well-formed and cyclic, and
resolution fails with a cycle error naming the repeated component. -/
theorem resolve_cyclic_fails_witness :
    wellFormedB [("Pet", CompEntry.val ["Pet"])] = true ∧
    cyclicSetB [("Pet", CompEntry.val ["Pet"])] ["Pet"] = true ∧
    ∃ pre m, resolve [("Pet", CompEntry.val ["Pet"])] =
      .error (.Cycle (pre ++ [m])) ∧ m ∈ pre :=
  ⟨by decide, by decide,
   resolve_cyclic_fails [("Pet", CompEntry.val ["Pet"])] ["Pet"]
     (by decide) (by decide)⟩

end Oam
